import Mathlib

/-!
Shallow embedding of `src/src/main.rs` of the project bootstrapper: the
data model (`ProjectLanguage`, `Command`, `CommandExists`, `LANGUAGES`),
the text-entry loop (`get_project_name`, embedded as `nameRun`), the
language-selection loop (`get_selected_language`, embedded as `selLoop`
and `runSelection`), the dispatch block of `main` (embedded as
`dispatchEff`), and the whole of `main` as an effect trace (`session`).

Machine integers: the selection cursor is a Rust `usize`; its arithmetic
is embedded as `Nat` modulo `2 ^ 64` (release-profile wrapping semantics;
a debug build panics at exactly the same inputs where the wrap occurs, so
the boundary behaviour claims are settled identically either way).
-/

namespace Bootstrap

/-- The `ProjectLanguage` enum of main.rs (lines 60-67). -/
inductive ProjectLanguage
  | rust
  | web
  | cpp
  | ocaml
  | haskell
  deriving DecidableEq, BEq, Repr

/-- The `Command` struct of main.rs (lines 30-34). -/
structure Command where
  command : String
  args : List String
  automatic_new_folder : Bool
  deriving DecidableEq, BEq, Repr

/-- The `CommandExists` enum of main.rs (lines 25-28): a language is
initialised either by an external command or by writing stub files. -/
inductive CommandExists
  | Exists (c : Command)
  | notExists (files : List String)
  deriving DecidableEq, BEq, Repr

/-- The `LANGUAGES` table of main.rs (lines 36-58). The Rust code stores it
in a `std::collections::HashMap`; keyed lookup (`LANGUAGES.get(&language)`)
is order-independent, so the map is embedded as a function on the keys. -/
def LANGUAGES : ProjectLanguage → CommandExists
  | .rust => .Exists ⟨"cargo", ["new"], true⟩
  | .web => .notExists ["index.html"]
  | .cpp => .notExists ["src", "main.cpp"]
  | .ocaml => .Exists ⟨"dune", ["init", "project"], true⟩
  | .haskell => .Exists ⟨"cabal", ["init"], false⟩

/-- The insertion order of the `HashMap::from([...])` array literal at
main.rs lines 38-56. Note that iteration order of the `HashMap` itself
(used by `print_selection` and by `.iter().nth(selected)`) is unspecified
and seeded per process, so it need not coincide with this list. -/
def insertionOrder : List ProjectLanguage :=
  [.rust, .web, .cpp, .ocaml, .haskell]

/-- The `MyError` enum of main.rs (lines 13-17); the `std::io::Error`
payload is embedded as its description string. -/
inductive MyError
  | io (e : String)
  | gracefulShutdown
  deriving DecidableEq, BEq, Repr

/-- Key codes distinguished by the two input loops of main.rs; every
`crossterm::event::KeyCode` the code does not match on is `other`. -/
inductive KeyCode
  | char (c : Char)
  | enter
  | backspace
  | up
  | down
  | other
  deriving DecidableEq, BEq, Repr

/-- A key event: its code, and whether the modifier set equals exactly
`KeyModifiers::CONTROL` (the only modifier test made by the code, at
main.rs line 153). -/
structure KeyEv where
  code : KeyCode
  ctrl : Bool
  deriving DecidableEq, BEq, Repr

/-- The `crossterm::event::Event` enum: a key event, or one of the
non-key events (resize, mouse, focus, paste) that the code never
destructures. -/
inductive Event
  | key (k : KeyEv)
  | resize (w h : Nat)
  | mouse
  | focusGained
  | focusLost
  | paste (s : String)
  deriving DecidableEq, BEq, Repr

/-- A plain printable-character key press (no modifiers). -/
def chev (c : Char) : Event := .key ⟨.char c, false⟩

/-- The Enter key press. -/
def enterEv : Event := .key ⟨.enter, false⟩

/-- The Backspace key press. -/
def backspaceEv : Event := .key ⟨.backspace, false⟩

/-- The Up arrow key press. -/
def upEv : Event := .key ⟨.up, false⟩

/-- The Down arrow key press. -/
def downEv : Event := .key ⟨.down, false⟩

/-- The Ctrl-C chord: code `Char('c')` with modifiers exactly CONTROL. -/
def ctrlCEv : Event := .key ⟨.char 'c', true⟩

/-- The input loop of `get_project_name` (main.rs lines 149-171), run on a
finite prefix of the input event stream. The buffer is the `project_name`
string as a list of characters. Returns `none` when the event list is
exhausted with the loop still blocked on `event::read()`; otherwise the
function result of `get_project_name` paired with the unconsumed events.
The `while let Event::Key(key)` head means any non-key event exits the
loop and the current buffer is returned as `Ok` (line 171). -/
def nameRun : List Event → List Char → Option (Except MyError (List Char) × List Event)
  | [], _ => none
  | Event.key ⟨KeyCode.char c, ctrl⟩ :: rest, buf =>
    if c = 'c' ∧ ctrl = true then some (Except.error MyError.gracefulShutdown, rest)
    else nameRun rest (buf ++ [c])
  | Event.key ⟨KeyCode.enter, _⟩ :: rest, buf => some (Except.ok buf, rest)
  | Event.key ⟨KeyCode.backspace, _⟩ :: rest, buf => nameRun rest buf.dropLast
  | Event.key ⟨_, _⟩ :: rest, buf => nameRun rest buf
  | _ :: rest, buf => some (Except.ok buf, rest)

/-- The width of the Rust `usize` type on the 64-bit targets this tool
compiles for. -/
def USIZE : Nat := 2 ^ 64

/-- The effect of `KeyCode::Up => selected -= 1` (main.rs line 206) on the
`usize` cursor, with release-profile wrapping semantics; a debug build
panics exactly when `selected = 0`, where this wraps. -/
def upStep (selected : Nat) : Nat := (selected + (USIZE - 1)) % USIZE

/-- The effect of `KeyCode::Down => selected += 1` (main.rs line 207) on
the `usize` cursor, with release-profile wrapping semantics. -/
def downStep (selected : Nat) : Nat := (selected + 1) % USIZE

/-- The input loop of `get_selected_language` (main.rs lines 199-212), run
on a finite prefix of the event stream. Returns `none` when the events are
exhausted with the loop still blocked; otherwise the cursor value at the
`Enter` break, paired with the unconsumed events. Non-key events and all
unmatched keys (including Ctrl-C, which this loop does not special-case)
leave the cursor unchanged and the loop running. -/
def selLoop : List Event → Nat → Option (Nat × List Event)
  | [], _ => none
  | Event.key ⟨KeyCode.up, _⟩ :: rest, selected => selLoop rest (upStep selected)
  | Event.key ⟨KeyCode.down, _⟩ :: rest, selected => selLoop rest (downStep selected)
  | Event.key ⟨KeyCode.enter, _⟩ :: rest, selected => some (selected, rest)
  | Event.key ⟨_, _⟩ :: rest, selected => selLoop rest selected
  | _ :: rest, selected => selLoop rest selected

/-- The whole of `get_selected_language` (main.rs lines 196-217) given the
iteration order `menu` of the `LANGUAGES` hash map in this process: run
the loop, then look up `LANGUAGES.iter().nth(selected)` (line 216). The
inner `none` models the panic of `.unwrap()` when `selected` is out of
range of the menu. -/
def runSelection (menu : List ProjectLanguage) (events : List Event) :
    Option (Option ProjectLanguage) :=
  (selLoop events 0).map fun sr => menu.get? sr.1

/-- Observable effects of `main` (main.rs lines 81-134), in program order:
terminal-mode operations, filesystem operations (paths resolved against
the working directory at the start of the run, written as segment lists),
process replacement by `exec`, the final message, and exits. -/
inductive Eff
  | enterAltScreen
  | enableRaw
  | leaveAltScreen
  | disableRaw
  | createDir (p : List String)
  | setCwd (p : List String)
  | createDirAll (p : List String)
  | writeFile (p : List String) (content : String)
  | execProcess (cmd : String) (args : List String)
  | printDone
  | exitZero
  | panicked (msg : String)
  deriving DecidableEq, BEq, Repr

/-- Effects that belong to the dispatch block of `main` (lines 96-127):
filesystem operations and the external-process invocation. -/
def isDispatchOp : Eff → Bool
  | .createDir _ => true
  | .setCwd _ => true
  | .createDirAll _ => true
  | .writeFile _ _ => true
  | .execProcess _ _ => true
  | _ => false

/-- Whether an effect is the invocation of an external process. -/
def isExecProcess : Eff → Bool
  | .execProcess _ _ => true
  | _ => false

/-- The dispatch block of `main` (lines 96-127) for a chosen name and
language, as an effect trace. For `Exists` commands the trace ends at
`execProcess`: `CommandExt::exec` replaces the process image, so the
restoration code at lines 129-133 never runs on those paths. For
`notExists` file lists, `file_copy.pop().unwrap()` (line 119) panics on an
empty list; otherwise the intermediate directories are created and the
leaf file written with the placeholder content `b"test"` (line 125), after
which lines 129-133 restore the terminal, print and return (exit 0). All
paths are resolved: `create_dir_all(&path)` runs with the working
directory already inside the project directory, so its resolved path is
the project directory joined with the intermediate segments. -/
def dispatchEff (name : String) (lang : ProjectLanguage) : List Eff :=
  match LANGUAGES lang with
  | CommandExists.Exists cmd =>
    if cmd.automatic_new_folder then
      [Eff.execProcess cmd.command (cmd.args ++ [name])]
    else
      [Eff.createDir [name], Eff.setCwd [name],
       Eff.execProcess cmd.command (cmd.args ++ [name])]
  | CommandExists.notExists file =>
    match file.getLast? with
    | none => [Eff.panicked "called Option unwrap on a None value"]
    | some file_name =>
      [Eff.createDir [name], Eff.setCwd [name],
       Eff.createDirAll ([name] ++ file.dropLast),
       Eff.setCwd ([name] ++ file.dropLast),
       Eff.writeFile ([name] ++ file.dropLast ++ [file_name]) "test",
       Eff.leaveAltScreen, Eff.disableRaw, Eff.printDone, Eff.exitZero]

/-- The trace of `exit_program_gracefully` (main.rs lines 219-225),
prefixed by the terminal acquisition of lines 85-86. -/
def gracefulTrace : List Eff :=
  [Eff.enterAltScreen, Eff.enableRaw,
   Eff.leaveAltScreen, Eff.disableRaw, Eff.printDone, Eff.exitZero]

/-- Whether a trace contains both halves of the terminal release
(`LeaveAlternateScreen` and `disable_raw_mode`). Every trace produced by
`session` ends at its exit event (normal exit, panic, or process
replacement by exec), so containment is equivalent to the release running
before the process exits. -/
def releasedBeforeExit (tr : List Eff) : Bool :=
  tr.contains Eff.leaveAltScreen && tr.contains Eff.disableRaw

/-- Scan of a trace tracking whether `LeaveAlternateScreen` and
`disable_raw_mode` have already occurred; `true` iff both precede every
dispatch operation in the trace. -/
def restoredBeforeDispatchAux : List Eff → Bool → Bool → Bool
  | [], _, _ => true
  | e :: rest, alt, raw =>
    match isDispatchOp e with
    | true => alt && raw && restoredBeforeDispatchAux rest alt raw
    | false =>
      restoredBeforeDispatchAux rest (alt || e == Eff.leaveAltScreen)
        (raw || e == Eff.disableRaw)

/-- Whether the terminal is fully restored before the first dispatch
operation of a trace (vacuously true when the trace has none). -/
def restoredBeforeDispatchB (tr : List Eff) : Bool :=
  restoredBeforeDispatchAux tr false false

/-- The whole of `main` (main.rs lines 81-134) as an effect trace, given
the iteration order `menu` of the `LANGUAGES` hash map in this process, a
finite prefix of the input event stream, and an optional injected I/O
failure of the first `clear_screen` write (line 147), carrying the error
description: on that failure `get_project_name` returns `Err(MyError::Io)`
and line 91 panics without restoring the terminal. Returns `none` when the
run is still blocked awaiting input at the end of the supplied events. -/
def session (menu : List ProjectLanguage) (events : List Event)
    (ioFault : Option String) : Option (List Eff) :=
  match ioFault with
  | some e => some [Eff.enterAltScreen, Eff.enableRaw, Eff.panicked e]
  | none =>
    match nameRun events [] with
    | none => none
    | some (Except.error MyError.gracefulShutdown, _) => some gracefulTrace
    | some (Except.error (MyError.io e), _) =>
      some [Eff.enterAltScreen, Eff.enableRaw, Eff.panicked e]
    | some (Except.ok name, rest) =>
      match selLoop rest 0 with
      | none => none
      | some (selected, _) =>
        match menu.get? selected with
        | none =>
          some [Eff.enterAltScreen, Eff.enableRaw,
                Eff.panicked "called Option unwrap on a None value"]
        | some lang =>
          some ([Eff.enterAltScreen, Eff.enableRaw] ++
                dispatchEff (String.mk name) lang)

/-- Running `nameRun` on a block of plain printable-character key presses
pushes exactly those characters onto the buffer, in order, and continues
with the remaining events. -/
theorem nameRun_chars (cs : List Char) (tail : List Event) (buf : List Char) :
    nameRun (cs.map chev ++ tail) buf = nameRun tail (buf ++ cs) := by
  induction cs generalizing buf with
  | nil => simp
  | cons c cs ih =>
      simp only [List.map_cons, List.cons_append, chev, nameRun, List.append_eq]
      rw [if_neg (by simp)]
      rw [ih]
      simp

/-- Pressing the Ctrl-C chord at any point of the name-entry loop returns
`Err(MyError::GracefulShutdown)` immediately, whatever the buffer. -/
theorem nameRun_ctrlC (events : List Event) (buf : List Char) :
    nameRun (ctrlCEv :: events) buf =
      some (Except.error MyError.gracefulShutdown, events) := by
  simp [nameRun, ctrlCEv]

/-- C1: the claim fails on the code: the cursor update has no wraparound.
Pressing Up at index 0 does not yield n-1 = 4; it wraps the usize cursor
to 2^64-1 (a debug build panics on the underflow), and pressing Down at
the last index 4 yields 5 - both outside [0, 5), and the subsequent
`LANGUAGES.iter().nth(selected).unwrap()` finds no element at index 5. -/
theorem c1_no_wraparound :
    upStep 0 = USIZE - 1 ∧ upStep 0 ≠ 4 ∧ ¬ upStep 0 < 5 ∧
    downStep 4 = 5 ∧ downStep 4 ≠ 0 ∧ ¬ downStep 4 < 5 ∧
    insertionOrder.get? (downStep 4) = none ∧
    selLoop [upEv, enterEv] 0 = some (USIZE - 1, []) := by
  refine ⟨by decide, by decide, by decide, by decide, by decide, by decide, ?_, ?_⟩
  · rfl
  · rfl

/-- C2: the claim fails on the code: with the 5-item menu, pressing Down
5 times from cursor 0 leaves the cursor at 5 (not back at 0), where the
`nth(selected).unwrap()` lookup panics, and pressing Up 5 times leaves it
at 2^64 - 5 (not back at 0): the cursor arithmetic is modulo 2^64, never
modulo the menu length. -/
theorem c2_no_cycle :
    selLoop (List.replicate 5 downEv ++ [enterEv]) 0 = some (5, []) ∧ (5 : Nat) ≠ 0 ∧
    insertionOrder.get? 5 = none ∧
    selLoop (List.replicate 5 upEv ++ [enterEv]) 0 = some (USIZE - 5, []) ∧
    USIZE - 5 ≠ 0 := by
  refine ⟨rfl, by decide, rfl, rfl, by decide⟩

/-- C3 counterexample: in the session whose events are [char a, Enter,
Ctrl-C, Enter] the interrupt chord arrives during language selection, yet
the session does not end in the graceful-cancel trace: the Ctrl-C is
ignored by the selection loop and the session completes with a full
outcome, replacing the process with `cargo new a`. -/
theorem c3_counterexample :
    session insertionOrder [chev 'a', enterEv, ctrlCEv, enterEv] none =
      some [Eff.enterAltScreen, Eff.enableRaw, Eff.execProcess "cargo" ["new", "a"]] ∧
    session insertionOrder [chev 'a', enterEv, ctrlCEv, enterEv] none ≠
      some gracefulTrace := by
  refine ⟨rfl, by decide⟩

/-- C3 amended: the interrupt chord during name entry (after any block of
typed characters) always ends the session in the graceful-cancel trace,
but during language selection Ctrl-C is ignored like any other unhandled
key: the selection loop continues with the cursor unchanged. -/
theorem c3_amended_thm (menu : List ProjectLanguage) (cs : List Char)
    (events : List Event) (s : Nat) (rest : List Event) :
    session menu (cs.map chev ++ ctrlCEv :: events) none = some gracefulTrace ∧
    selLoop (ctrlCEv :: rest) s = selLoop rest s := by
  constructor
  · simp [session, nameRun_chars, nameRun_ctrlC]
  · rfl

/-- C4 counterexample: the session whose events are [Enter, Enter] (empty
name submitted, first menu entry confirmed, here rust) exits by replacing
the process image with `cargo new` while the terminal is still in raw
mode on the alternate screen: the release at main.rs lines 130-131 never
runs on this exit path. -/
theorem c4_counterexample :
    session insertionOrder [enterEv, enterEv] none =
      some [Eff.enterAltScreen, Eff.enableRaw, Eff.execProcess "cargo" ["new", ""]] ∧
    releasedBeforeExit
      [Eff.enterAltScreen, Eff.enableRaw, Eff.execProcess "cargo" ["new", ""]] = false := by
  refine ⟨rfl, by decide⟩

/-- C4 amended: the terminal release runs before process exit on the
graceful-cancel path and on the stub-file (web, cpp) success paths only;
on an I/O failure during name entry the process panics without releasing,
and on the command-based (rust, ocaml, haskell) success paths the process
image is replaced by `exec` with the terminal still unreleased. -/
theorem c4_amended_thm (menu : List ProjectLanguage) (cs : List Char)
    (events : List Event) (e : String) (name : String) :
    (session menu (cs.map chev ++ ctrlCEv :: events) none = some gracefulTrace ∧
      releasedBeforeExit gracefulTrace = true) ∧
    (session menu events (some e) =
        some [Eff.enterAltScreen, Eff.enableRaw, Eff.panicked e] ∧
      releasedBeforeExit [Eff.enterAltScreen, Eff.enableRaw, Eff.panicked e] = false) ∧
    (releasedBeforeExit
        ([Eff.enterAltScreen, Eff.enableRaw] ++ dispatchEff name .web) = true ∧
      releasedBeforeExit
        ([Eff.enterAltScreen, Eff.enableRaw] ++ dispatchEff name .cpp) = true) ∧
    (releasedBeforeExit
        ([Eff.enterAltScreen, Eff.enableRaw] ++ dispatchEff name .rust) = false ∧
      releasedBeforeExit
        ([Eff.enterAltScreen, Eff.enableRaw] ++ dispatchEff name .ocaml) = false ∧
      releasedBeforeExit
        ([Eff.enterAltScreen, Eff.enableRaw] ++ dispatchEff name .haskell) = false) := by
  refine ⟨⟨?_, by decide⟩, ⟨rfl, rfl⟩, ⟨rfl, rfl⟩, rfl, rfl, rfl⟩
  simp [session, nameRun_chars, nameRun_ctrlC]

/-- C5 counterexample: in the successful session with name "demo" and
selection of the second menu entry (web, under the insertion iteration
order), the directory and file creation all happen before the terminal is
restored: the trace does not restore the terminal before dispatch
begins. -/
theorem c5_counterexample :
    session insertionOrder
        [chev 'd', chev 'e', chev 'm', chev 'o', enterEv, downEv, enterEv] none =
      some ([Eff.enterAltScreen, Eff.enableRaw] ++ dispatchEff "demo" ProjectLanguage.web) ∧
    restoredBeforeDispatchB
      ([Eff.enterAltScreen, Eff.enableRaw] ++ dispatchEff "demo" ProjectLanguage.web) = false := by
  refine ⟨rfl, by decide⟩

/-- C5 amended: for every project name, the dispatch traces show the
terminal is restored only after dispatch completes, never before it
begins: on the stub-file paths (web, cpp) every filesystem operation
precedes `LeaveAlternateScreen`/`disable_raw_mode`, and on the
command-based paths (rust, ocaml, haskell) the process is replaced by
`exec` before any restoration; in no case is the terminal restored before
the first dispatch operation. -/
theorem c5_amended_thm (name : String) :
    dispatchEff name .rust = [Eff.execProcess "cargo" ["new", name]] ∧
    dispatchEff name .ocaml = [Eff.execProcess "dune" ["init", "project", name]] ∧
    dispatchEff name .haskell =
      [Eff.createDir [name], Eff.setCwd [name],
       Eff.execProcess "cabal" ["init", name]] ∧
    dispatchEff name .web =
      [Eff.createDir [name], Eff.setCwd [name], Eff.createDirAll [name],
       Eff.setCwd [name], Eff.writeFile [name, "index.html"] "test",
       Eff.leaveAltScreen, Eff.disableRaw, Eff.printDone, Eff.exitZero] ∧
    dispatchEff name .cpp =
      [Eff.createDir [name], Eff.setCwd [name], Eff.createDirAll [name, "src"],
       Eff.setCwd [name, "src"], Eff.writeFile [name, "src", "main.cpp"] "test",
       Eff.leaveAltScreen, Eff.disableRaw, Eff.printDone, Eff.exitZero] ∧
    (∀ lang, restoredBeforeDispatchB
        ([Eff.enterAltScreen, Eff.enableRaw] ++ dispatchEff name lang) = false) := by
  refine ⟨rfl, rfl, rfl, rfl, rfl, ?_⟩
  intro lang
  cases lang <;> rfl

/-- C6: Backspace on an empty buffer is a no-op of the text-entry loop:
the run with a leading Backspace equals the run without it, the buffer
stays empty, and no error or underflow occurs. -/
theorem c6_backspace_empty (rest : List Event) :
    nameRun (backspaceEv :: rest) [] = nameRun rest [] := rfl

/-- C7: for every finite sequence of printable-character key presses
followed by Enter, starting from the empty buffer, the loop submits
exactly the concatenation of those characters in input order; in
particular [char a, char b, char c, Enter] submits "abc". -/
theorem c7_text_fidelity :
    (∀ cs : List Char,
      nameRun (cs.map chev ++ [enterEv]) [] = some (Except.ok cs, [])) ∧
    nameRun [chev 'a', chev 'b', chev 'c', enterEv] [] =
      some (Except.ok ['a', 'b', 'c'], []) := by
  constructor
  · intro cs
    rw [nameRun_chars]
    rfl
  · rfl

/-- C8: the selected language is determined by the iteration order of the
`LANGUAGES` hash map, which `std::collections::HashMap` does not fix: only
when that order happens to equal the insertion order does [Down, Down,
Enter] select cpp; under another possible iteration order of the same
five entries the same input selects a different language. -/
theorem c8_order_dependent :
    runSelection insertionOrder [downEv, downEv, enterEv] =
      some (some ProjectLanguage.cpp) ∧
    runSelection
      [ProjectLanguage.cpp, ProjectLanguage.rust, ProjectLanguage.web,
        ProjectLanguage.ocaml, ProjectLanguage.haskell]
      [downEv, downEv, enterEv] = some (some ProjectLanguage.web) ∧
    ProjectLanguage.web ≠ ProjectLanguage.cpp := by
  refine ⟨rfl, rfl, by decide⟩

/-- C9: dispatch for project name "demo" and language web creates the
directory "demo", writes the placeholder file "demo/index.html" (content
"test"), and invokes no external process. -/
theorem c9_web_dispatch :
    dispatchEff "demo" ProjectLanguage.web =
      [Eff.createDir ["demo"], Eff.setCwd ["demo"], Eff.createDirAll ["demo"],
       Eff.setCwd ["demo"], Eff.writeFile ["demo", "index.html"] "test",
       Eff.leaveAltScreen, Eff.disableRaw, Eff.printDone, Eff.exitZero] ∧
    (dispatchEff "demo" ProjectLanguage.web).contains (Eff.createDir ["demo"]) = true ∧
    (dispatchEff "demo" ProjectLanguage.web).contains
      (Eff.writeFile ["demo", "index.html"] "test") = true ∧
    (dispatchEff "demo" ProjectLanguage.web).all (fun e => ! isExecProcess e) = true := by
  refine ⟨rfl, rfl, rfl, rfl⟩

/-- C10: any non-key input event (for example a terminal resize) falsifies
the `while let Event::Key` head of the name-entry loop, which then returns
the current buffer as a successful submission without Enter having been
pressed. -/
theorem c10_nonkey_submits (e : Event) (h : ∀ k, e ≠ Event.key k)
    (rest : List Event) (buf : List Char) :
    nameRun (e :: rest) buf = some (Except.ok buf, rest) := by
  cases e with
  | key k => exact absurd rfl (h k)
  | resize w ht => rfl
  | mouse => rfl
  | focusGained => rfl
  | focusLost => rfl
  | paste s => rfl

/-- C10 witness: a resize event arriving with "x" in the buffer ends name
entry with the submission "x". -/
theorem c10_witness :
    nameRun [Event.resize 80 24] ['x'] = some (Except.ok ['x'], []) :=
  c10_nonkey_submits (Event.resize 80 24) (fun _ hk => Event.noConfusion hk) [] ['x']

end Bootstrap
